import Mathlib

/-!
# Verification of the superdriver Annotation Mapping Engine

A shallow embedding of the core of the `superdriver` repository:

* `src/util/map.js` — the Schema Annotation Scanner (`traverseMapping`,
  `processObject`, `processArray`), the Payload Value Resolver
  (`extractValue`) and `mapResponse`;
* the consumer client (`buildRequest`, `execute` up to the transport call,
  `normalizeResponse`) in its current variant (the one that places header
  parameters, throws on missing required parameters and normalizes via
  `mapResponse`).

JavaScript values are modelled by the inductive type `Json` (with an
explicit `undefined` constructor for JavaScript `undefined`); exceptions
thrown by the JavaScript code are modelled with `Option`/`Except`;
object-key iteration order is modelled by association lists kept in
insertion order, as JavaScript preserves string-key insertion order.

Modelling notes, stated once here:
* `lodash.get` is modelled for dotted property paths (the only paths the
  scanner produces); bracket syntax inside keys and the boxed properties
  of primitives (such as `"abc".length`) are not modelled.
* JavaScript numbers are modelled by `Int`; `NaN` does not occur in any
  of the embedded code paths.
-/

/-- JavaScript runtime values, including `undefined`. -/
inductive Json : Type where
  | undefined : Json
  | null : Json
  | bool : Bool → Json
  | num : Int → Json
  | str : String → Json
  | arr : List Json → Json
  | obj : List (String × Json) → Json
deriving Repr, Inhabited

namespace Json

/-- JavaScript truthiness (`if (v)`), as used by the request builder
(`isProvided || parameterValue`). An empty array or object is truthy. -/
def truthy : Json → Bool
  | .undefined => false
  | .null => false
  | .bool b => b
  | .num n => n != 0
  | .str s => s != ""
  | .arr _ => true
  | .obj _ => true

/-- Every `Json` value has positive size (used for termination of the
payload value resolver). -/
theorem one_le_sizeOf (v : Json) : 1 ≤ sizeOf v := by
  cases v <;> simp

end Json

/-- Canonical array-index coercion of a property key, as JavaScript applies
to `arr[key]`: only the canonical decimal numeral (no leading zero except
`"0"`) denotes an index. -/
def jsIndex? (k : String) : Option Nat :=
  if k.length > 0 && k.toList.all Char.isDigit && (k = "0" || k.front != '0') then
    k.toNat?
  else
    none

/-- One step of `lodash.get`'s `baseGet` loop: `object[toKey(key)]`.
Missing keys, `null`, `undefined` and primitives yield `undefined`. -/
def jsGetKey : Json → String → Json
  | .obj fields, k => (fields.lookup k).getD .undefined
  | .arr xs, k =>
      match jsIndex? k with
      | some i => (xs.get? i).getD .undefined
      | none => .undefined
  | _, _ => .undefined

/-- The `baseGet` loop of `lodash.get`: walk a list of keys; reaching
`null`/`undefined` before the keys are exhausted yields `undefined`
(further `jsGetKey` steps on `null`/`undefined` stay `undefined`). -/
def jsGetPath (d : Json) (ks : List String) : Json :=
  ks.foldl jsGetKey d

/-- Split a string at every `'.'` — the dotted-path case of lodash's
`stringToPath`/`castPath`. A key without dots stays a single segment, which
is also what `castPath` does for plain keys (`isKey`). -/
def splitDotsAux : List Char → List Char → List String
  | [], acc => [String.mk acc.reverse]
  | c :: rest, acc =>
      if c = '.' then String.mk acc.reverse :: splitDotsAux rest []
      else splitDotsAux rest (c :: acc)

def splitDots (s : String) : List String :=
  splitDotsAux s.toList []

/-- `lodash.get(data, path)` for a string path: the path is split into its
dotted components (`stringToPath`), then walked by `baseGet`. -/
def lodashGet (d : Json) (path : String) : Json :=
  jsGetPath d (splitDots path)

theorem sizeOf_lookup_lt :
    ∀ (fields : List (String × Json)) (k : String) (v : Json),
      fields.lookup k = some v → sizeOf v < sizeOf fields := by
  intro fields
  induction fields with
  | nil => intro k v h; simp [List.lookup] at h
  | cons kv rest ih =>
      intro k v h
      rcases kv with ⟨a, b⟩
      rw [List.lookup] at h
      split at h
      · cases h
        simp only [List.cons.sizeOf_spec, Prod.mk.sizeOf_spec]
        omega
      · have := ih k v h
        simp only [List.cons.sizeOf_spec]
        omega

theorem sizeOf_getElem?_lt :
    ∀ (xs : List Json) (i : Nat) (e : Json), xs.get? i = some e → sizeOf e < sizeOf xs := by
  intro xs
  induction xs with
  | nil => intro i e h; simp at h
  | cons x rest ih =>
      intro i e h
      cases i with
      | zero =>
          simp only [List.get?] at h
          cases h
          simp only [List.cons.sizeOf_spec]
          omega
      | succ n =>
          simp only [List.get?] at h
          have := ih n e h
          simp only [List.cons.sizeOf_spec]
          omega

theorem sizeOf_jsGetKey_le (d : Json) (k : String) : sizeOf (jsGetKey d k) ≤ sizeOf d := by
  cases d with
  | obj fields =>
      simp only [jsGetKey]
      match h : fields.lookup k with
      | none => simp [Json.undefined.sizeOf_spec]
      | some v =>
          simp only [h, Option.getD_some]
          have h1 := sizeOf_lookup_lt fields k v h
          simp only [Json.obj.sizeOf_spec]
          omega
  | arr xs =>
      simp only [jsGetKey]
      match hi : jsIndex? k with
      | none => simp [Json.undefined.sizeOf_spec]
      | some i =>
          simp only [hi]
          match hg : xs.get? i with
          | none => simp [Json.undefined.sizeOf_spec]
          | some e =>
              simp only [hg, Option.getD_some]
              have h1 := sizeOf_getElem?_lt xs i e hg
              simp only [Json.arr.sizeOf_spec]
              omega
  | undefined => simp [jsGetKey]
  | null => simp [jsGetKey]
  | bool b => simp [jsGetKey]
  | num n => simp [jsGetKey]
  | str s => simp [jsGetKey]

theorem sizeOf_jsGetPath_le (ks : List String) (d : Json) :
    sizeOf (jsGetPath d ks) ≤ sizeOf d := by
  induction ks generalizing d with
  | nil => simp [jsGetPath]
  | cons k rest ih =>
      have h1 := sizeOf_jsGetKey_le d k
      have h2 := ih (jsGetKey d k)
      simp only [jsGetPath, List.foldl] at h2 ⊢
      omega

theorem sizeOf_lodashGet_le (d : Json) (p : String) : sizeOf (lodashGet d p) ≤ sizeOf d :=
  sizeOf_jsGetPath_le _ d

/-- The string `lodash.get` is invoked with for `cursor[0]`: the head of
the cursor, or — when the cursor is empty — the key `"undefined"`, because
JavaScript `cursor[0]` is `undefined` there and lodash coerces the
`undefined` path to the property key `"undefined"` (`toKey`). -/
def headKey : List String → String
  | [] => "undefined"
  | p :: _ => p

/-- `extractValue(data, cursor)` of `src/util/map.js`: resolve `cursor[0]`
with `lodash.get`; if the value is an array, recurse into each element
with `cursor.slice(1)`; otherwise return the value directly. -/
def extractValue (data : Json) (cursor : List String) : Json :=
  match hv : lodashGet data (headKey cursor) with
  | .arr elems => .arr (elems.attach.map (fun x => extractValue x.1 cursor.tail))
  | .undefined => .undefined
  | .null => .null
  | .bool b => .bool b
  | .num n => .num n
  | .str s => .str s
  | .obj fields => .obj fields
termination_by sizeOf data
decreasing_by
  have h1 : sizeOf x.1 < sizeOf (Json.arr elems) := by
    have := List.sizeOf_lt_of_mem x.2
    simp only [Json.arr.sizeOf_spec]
    omega
  have h2 : sizeOf (Json.arr elems) ≤ sizeOf data := by
    rw [← hv]; exact sizeOf_lodashGet_le data (headKey cursor)
  omega

/-- Non-dependent unfolding of `extractValue`. -/
theorem extractValue_eq (data : Json) (cursor : List String) :
    extractValue data cursor =
      match lodashGet data (headKey cursor) with
      | .arr elems => .arr (elems.map (fun e => extractValue e cursor.tail))
      | v => v := by
  rw [extractValue]
  match hv : lodashGet data (headKey cursor) with
  | .arr elems => simp [List.attach_map_val, hv]
  | .undefined => simp [hv]
  | .null => simp [hv]
  | .bool b => simp [hv]
  | .num n => simp [hv]
  | .str s => simp [hv]
  | .obj fields => simp [hv]

/-! ## The Schema Annotation Scanner (`src/util/map.js`) -/

mutual
/-- A node of an annotated (dereferenced) JSON-Schema tree, carrying the
fields `traverseMapping` reads: the `x-profile` annotation
(`OAS_PROFILE_KEY`; `none` when the key is absent), the `type` field,
the `properties` map in declaration order (an absent `properties` is the
empty list: `for..in` over `undefined` iterates nothing) and the `items`
field. -/
inductive SchemaNode : Type where
  | mk (xprofile : Option String) (typ : Option String)
       (properties : List (String × SchemaNode)) (items : SchemaItems) : SchemaNode

/-- The `items` field of a schema node: absent, a single schema object, or
a JSON-Schema tuple (an array of schemas). -/
inductive SchemaItems : Type where
  | undefined : SchemaItems
  | single (s : SchemaNode) : SchemaItems
  | tuple (ss : List SchemaNode) : SchemaItems
end

def SchemaNode.xprofile : SchemaNode → Option String
  | .mk xp _ _ _ => xp

def SchemaNode.typ : SchemaNode → Option String
  | .mk _ ty _ _ => ty

def SchemaNode.properties : SchemaNode → List (String × SchemaNode)
  | .mk _ _ props _ => props

def SchemaNode.items : SchemaNode → SchemaItems
  | .mk _ _ _ its => its

/-- A `(semanticId, cursor)` pair emitted by the scanner (the source calls
the semantic id `profileId`). -/
structure MappingEntry where
  profileId : String
  cursor : List String
deriving Repr, DecidableEq

/-- The per-property cursor update of `processObject`: with
`last = cursor[cursor.length - 1]`, an empty-string last segment (the
array sentinel) is replaced by the key, a non-empty (truthy) last segment
grows into a dotted path, and on an empty cursor the key is pushed. -/
def childCursor (cursor : List String) (key : String) : List String :=
  match cursor.getLast? with
  | some "" => cursor.dropLast ++ [key]
  | some last => cursor.dropLast ++ [last ++ "." ++ key]
  | none => cursor ++ [key]

mutual
/-- `traverseMapping(obj, cursor)` of `src/util/map.js`: emit an entry when
the node carries `x-profile`, then recurse into object properties or array
items. A `none` result models a thrown TypeError (which aborts the whole
scan), arising from `for..of` over absent `items`. -/
def traverseMapping : SchemaNode → List String → Option (List MappingEntry)
  | .mk xp ty props items, cursor =>
    let own : List MappingEntry :=
      match xp with
      | some pid => [{ profileId := pid, cursor := cursor }]
      | none => []
    let sub : Option (List MappingEntry) :=
      if ty = some "object" then processObject props cursor
      else if ty = some "array" then processArray items cursor
      else some []
    match sub with
    | some r => some (own ++ r)
    | none => none

/-- `processObject(obj, cursor)`: iterate the properties in declaration
order, recursing with the per-key cursor (`localCursor` is rebuilt from the
unchanged outer `cursor` for every key). -/
def processObject : List (String × SchemaNode) → List String → Option (List MappingEntry)
  | [], _ => some []
  | (key, child) :: rest, cursor =>
    match traverseMapping child (childCursor cursor key) with
    | some r =>
        match processObject rest cursor with
        | some rs => some (r ++ rs)
        | none => none
    | none => none

/-- `processArray(obj, cursor)`: a single `items` schema gets the
empty-string sentinel pushed and is traversed. A tuple (`items` an array)
also passes the source's `isObject` test, so `traverseMapping` runs on the
array object itself, which has no `x-profile` key and no `type` — nothing
is emitted. Absent `items` reaches `for..of` over `undefined`, a thrown
TypeError. -/
def processArray : SchemaItems → List String → Option (List MappingEntry)
  | .single s, cursor => traverseMapping s (cursor ++ [""])
  | .tuple _, _ => some []
  | .undefined, _ => none
end

/-- A scanner entry enriched with the extracted value (`mapResponse`). -/
structure ValuedMapping where
  profileId : String
  cursor : List String
  value : Json
deriving Repr

/-- `mapResponse(mappingSchema, responseData)` of `src/util/map.js`: scan
the mapping schema from the empty cursor, then extend every entry with the
value extracted from the response data at its cursor. -/
def mapResponse (mappingSchema : SchemaNode) (responseData : Json) :
    Option (List ValuedMapping) :=
  match traverseMapping mappingSchema [] with
  | none => none
  | some entries =>
      some (entries.map (fun e =>
        { profileId := e.profileId, cursor := e.cursor
          value := extractValue responseData e.cursor }))

/-! ## JavaScript string coercion and object assignment helpers -/

mutual
/-- JavaScript `ToString` as used by template literals and `String.replace`
(`${parameterValue}`): `undefined` → `"undefined"`, `null` → `"null"`,
arrays join their elements with `","` (eliding `null`/`undefined`
elements), plain objects print `"[object Object]"`. -/
def Json.jsToString : Json → String
  | .undefined => "undefined"
  | .null => "null"
  | .bool b => cond b "true" "false"
  | .num n => toString n
  | .str s => s
  | .arr xs => Json.jsToStringList xs
  | .obj _ => "[object Object]"

def Json.jsToStringList : List Json → String
  | [] => ""
  | [x] => Json.jsToStringElem x
  | x :: y :: rest => Json.jsToStringElem x ++ "," ++ Json.jsToStringList (y :: rest)

def Json.jsToStringElem : Json → String
  | .undefined => ""
  | .null => ""
  | v => Json.jsToString v
end

/-- JavaScript property assignment `obj[k] = v` on an insertion-ordered
object: an existing key keeps its position and gets the new value, a new
key is appended. -/
def setField (fields : List (String × Json)) (k : String) (v : Json) :
    List (String × Json) :=
  if fields.any (fun kv => kv.1 = k) then
    fields.map (fun kv => if kv.1 = k then (k, v) else kv)
  else
    fields ++ [(k, v)]

/-- JavaScript `String.replace` with a plain string pattern: replace only
the first occurrence (the source's brute-force `{name}` URL substitution).
The pattern is never empty there (`"{" + name + "}"`). -/
def replaceFirst (s pat rep : String) : String :=
  match s.splitOn pat with
  | [] => s
  | [_] => s
  | a :: b :: rest => a ++ rep ++ String.intercalate pat (b :: rest)

/-! ## The Outbound Parameter Resolver and request builder (consumer) -/

/-- The `basic` entry of the consumer's `authentication` object
(credential store): `user`/`password` fields as given by the caller. -/
structure BasicCred where
  user : Json
  password : Json
deriving Repr

/-- The `apikey` entry of the credential store: `key`/`secret` fields. -/
structure ApikeyCred where
  key : Json
  secret : Json
deriving Repr

/-- The consumer's `authentication` object; `none` in a field models the
scheme key being absent from the object. -/
structure Authentication where
  basic : Option BasicCred
  apikey : Option ApikeyCred
deriving Repr

/-- The `x-super` annotation object (`OAS_SUPER_KEY`): an optional
`source` field (`OAS_SUPER_SOURCE_KEY`) and an optional literal `value`
field (`OAS_SUPER_VALUE_KEY`). The source checks `'source' in ...` first,
so a present `source` shadows `value`. -/
structure SuperHint where
  source : Option String
  value : Option Json
deriving Repr

/-- One entry of the operation's OAS `parameters` array, with the fields
`buildRequest` reads. `paramIn` is the OAS `in` field; `required` is
`none` when the key is absent (`('required' in parameter) ? ... : false`).
-/
structure ParamDecl where
  name : String
  paramIn : Option String
  required : Option Bool
  xprofile : Option String
  xsuper : Option SuperHint
deriving Repr

/-- The parameter value taken from the `x-super` metadata when the caller
provided no explicit input (`buildRequest` lines: `try super metadata`):
a `source` of `security-basic-user` reads `authentication.basic.user`, a
`source` of `security-apikey-key` reads `authentication.apikey.key`, any
other source leaves the value `undefined`; with no `source` key, a literal
`value` is used verbatim. -/
def superValue (auth : Option Authentication) (p : ParamDecl) : Json :=
  match p.xsuper with
  | none => .undefined
  | some hint =>
    match hint.source with
    | some src =>
        if src = "security-basic-user" then
          match auth with
          | some a =>
              match a.basic with
              | some b => b.user
              | none => .undefined
          | none => .undefined
        else if src = "security-apikey-key" then
          match auth with
          | some a =>
              match a.apikey with
              | some k => k.key
              | none => .undefined
          | none => .undefined
        else .undefined
    | none =>
        match hint.value with
        | some v => v
        | none => .undefined

/-- The value-resolution part of one `buildRequest` parameter iteration:
`(isProvided, parameterValue)`. `isProvided` is
`fullParameterId && (fullParameterId in inputParameters)` — a truthy
(non-empty) `x-profile` id found in the qualified input map; the value is
then the caller's input, otherwise the `x-super` metadata is consulted. -/
def resolveParamValue (auth : Option Authentication)
    (inputs : List (String × Json)) (p : ParamDecl) : Bool × Json :=
  match p.xprofile with
  | some pid =>
      if pid ≠ "" then
        match inputs.lookup pid with
        | some v => (true, v)
        | none => (false, superValue auth p)
      else (false, superValue auth p)
  | none => (false, superValue auth p)

/-- The mutable request state the parameter loop threads: the URL being
substituted into, the query list and the headers object. -/
structure ParamState where
  url : String
  query : List String
  headers : List (String × Json)
deriving Repr

/-- The message of the error thrown for a missing required parameter
(an absent `x-profile` id interpolates as `undefined`). -/
def missingRequiredMsg (p : ParamDecl) : String :=
  "required parameter '" ++ p.name ++ "' (profile id: '" ++
    p.xprofile.getD "undefined" ++ "') not provided"

/-- One iteration of the `forEach` over OAS parameters: a provided or
truthy value is placed (`in=query` appends `name=value`, `in=header` sets
the header to the raw value, anything else substitutes `{name}` in the
URL); otherwise a required parameter throws and a non-required one is
skipped. -/
def paramStep (auth : Option Authentication) (inputs : List (String × Json))
    (st : ParamState) (p : ParamDecl) : Except String ParamState :=
  let r := resolveParamValue auth inputs p
  if r.1 || (r.2).truthy then
    if p.paramIn = some "query" then
      .ok { st with query := st.query ++ [p.name ++ "=" ++ (r.2).jsToString] }
    else if p.paramIn = some "header" then
      .ok { st with headers := setField st.headers p.name r.2 }
    else
      .ok { st with url := replaceFirst st.url ("\x7b" ++ p.name ++ "\x7d") (r.2).jsToString }
  else if p.required.getD false then
    .error (missingRequiredMsg p)
  else
    .ok st

/-- The `forEach` over the declared parameters; a thrown error propagates
out of `buildRequest`. -/
def processParams (auth : Option Authentication) (inputs : List (String × Json)) :
    List ParamDecl → ParamState → Except String ParamState
  | [], st => .ok st
  | p :: rest, st =>
      match paramStep auth inputs st p with
      | .ok st' => processParams auth inputs rest st'
      | .error e => .error e

/-- One property of the request-body schema, with the fields the
single-level body walk reads (`schemaProperties[propertyKey]`). -/
structure BodyProp where
  xprofile : Option String
  xsuper : Option SuperHint
deriving Repr

/-- The media-type object under `requestBody.content[mediaType]`, reduced
to the `schema.properties` map the walk iterates (absent `properties`
iterates nothing). -/
structure MediaObj where
  properties : List (String × BodyProp)
deriving Repr

/-- The operation's `requestBody`, keyed by media type in declaration
order. -/
structure RequestBody where
  content : List (String × MediaObj)
deriving Repr

/-- One step of the single-level body walk: a truthy `x-profile` id is
looked up in the qualified inputs (missing input sets nothing), otherwise
a present `x-super` with source `security-apikey-key` / \
`security-apikey-secret` reads the credential store. Note this walk, unlike
the parameter walk, knows no literal `value` and no `basic` sources. -/
def bodyPropStep (auth : Option Authentication) (inputs : List (String × Json))
    (body : List (String × Json)) (key : String) (bp : BodyProp) :
    List (String × Json) :=
  if bp.xprofile.getD "" ≠ "" then
    match inputs.lookup (bp.xprofile.getD "") with
    | some v => setField body key v
    | none => body
  else
    match bp.xsuper with
    | some hint =>
        if hint.source = some "security-apikey-key" then
          match auth with
          | some a =>
              match a.apikey with
              | some k => setField body key k.key
              | none => body
          | none => body
        else if hint.source = some "security-apikey-secret" then
          match auth with
          | some a =>
              match a.apikey with
              | some k => setField body key k.secret
              | none => body
          | none => body
        else body
    | none => body

/-- The single-level (non-recursive) walk over the body schema's direct
properties, in declaration order. -/
def buildBody (auth : Option Authentication) (inputs : List (String × Json))
    (props : List (String × BodyProp)) : List (String × Json) :=
  props.foldl (fun b kv => bodyPropStep auth inputs b kv.1 kv.2) []

/-- The iteration over `requestBody.content`: each media type must be
`application/json` or `application/x-www-form-urlencoded`, otherwise
`buildRequest` returns `null` at once (`none` here); a supported media
type contributes `(mediaType, body)` in declaration order. -/
def buildContentTypes (auth : Option Authentication) (inputs : List (String × Json)) :
    List (String × MediaObj) → Option (List (String × List (String × Json)))
  | [] => some []
  | (mt, m) :: rest =>
      if mt ≠ "application/json" && mt ≠ "application/x-www-form-urlencoded" then
        none
      else
        match buildContentTypes auth inputs rest with
        | some cts => some ((mt, buildBody auth inputs m.properties) :: cts)
        | none => none

/-- The `securitySchemes` map of `apiSpecification.components`; the value
of each scheme id is kept as raw `Json` (only its `scheme` field is read).
-/
structure ApiComponents where
  securitySchemes : Option (List (String × Json))
deriving Repr

/-- The `forEach` over the operation's `security` array. Each requirement
object is represented by its key list; `Object.keys(item)[0]` on an empty
object is `undefined`, which the `in` operator coerces to the key
`"undefined"`. A scheme id that is not in the security components is
skipped (the callback's `return null` only ends that iteration); a found
one pushes its `scheme` field. -/
def buildSecurity (schemes : List (String × Json)) : List (List String) → List Json
  | [] => []
  | item :: rest =>
      let sid := item.headD "undefined"
      match schemes.lookup sid with
      | none => buildSecurity schemes rest
      | some comp => jsGetKey comp "scheme" :: buildSecurity schemes rest

/-- An OAS operation as returned by `findOperation`: the path template,
the method, and the `details` fields `buildRequest` reads. -/
structure OasOperation where
  url : String
  method : String
  parameters : Option (List ParamDecl)
  requestBody : Option RequestBody
  security : Option (List (List String))
deriving Repr

/-- The request object `buildRequest` returns. -/
structure HttpRequest where
  url : String
  method : String
  query : List String
  headers : List (String × Json)
  body : Option (List (String × Json))
  security : List Json
deriving Repr

/-- The three ways `buildRequest` can end: a request, a thrown exception
(an `Error` for a missing required parameter, or the TypeError from the
security sanity check), or a returned `null` (unsupported request media
type). -/
inductive BuildResult : Type where
  | ok (req : HttpRequest)
  | err (msg : String)
  | nullRet
deriving Repr

/-- The message of the TypeError thrown by the security sanity check: the
branch runs `debug.error('security specified but no security components
found')`, but a `debug`-package instance has no `error` method, so the
call is an invocation of `undefined` and throws before the `return null`
on the next line is ever reached. -/
def securityComponentsTypeError : String :=
  "TypeError: debug.error is not a function"

/-- Qualification of the caller's input parameters:
`{profileId}#{affordanceId}/{parameterId}`. -/
def qualifyInputs (profileId affordanceId : String)
    (parameters : List (String × Json)) : List (String × Json) :=
  parameters.map (fun kv => (profileId ++ "#" ++ affordanceId ++ "/" ++ kv.1, kv.2))

/-- `buildRequest(affordanceId, oasOperation, parameters)` of the consumer:
qualify the inputs, run the parameter loop, build the body from the
declared content types (`null` on an unsupported one; the first entry
becomes `content-type` header and body), resolve the security schemes
(a thrown TypeError — from the `debug.error` call on the way to the
`return null` — when security is declared but the spec has no security
components), and always set the `accept` header last. -/
def buildRequest (profileId providerUrl : String) (auth : Option Authentication)
    (components : Option ApiComponents) (affordanceId : String)
    (op : OasOperation) (parameters : List (String × Json)) : BuildResult :=
  let inputs := qualifyInputs profileId affordanceId parameters
  let st0 : ParamState := { url := providerUrl ++ op.url, query := [], headers := [] }
  let stE :=
    match op.parameters with
    | none => Except.ok st0
    | some ps => processParams auth inputs ps st0
  match stE with
  | .error msg => .err msg
  | .ok st =>
    let bodyStep : Option (List (String × Json) × Option (List (String × Json))) :=
      match op.requestBody with
      | none => some (st.headers, none)
      | some rb =>
          match buildContentTypes auth inputs rb.content with
          | none => none
          | some [] => some (st.headers, none)
          | some ((mt0, b0) :: _) =>
              some (setField st.headers "content-type" (.str mt0), some b0)
    match bodyStep with
    | none => .nullRet
    | some (headers1, body1) =>
        let securityStep : Except String (List Json) :=
          match op.security with
          | none => .ok []
          | some items =>
              match components with
              | none => .error securityComponentsTypeError
              | some comps =>
                  match comps.securitySchemes with
                  | none => .error securityComponentsTypeError
                  | some schemes => .ok (buildSecurity schemes items)
        match securityStep with
        | .error msg => .err msg
        | .ok sec =>
            .ok { url := st.url, method := op.method, query := st.query
                  headers := setField headers1 "accept" (.str "application/json")
                  body := body1, security := sec }

/-! ## `execute` up to the transport call, and `normalizeResponse` -/

/-- The base64 alphabet (RFC 4648), for `base64.encode`. -/
def base64Chars : List Char :=
  "ABCDEFGHIJKLMNOPQRSTUVWXYZabcdefghijklmnopqrstuvwxyz0123456789+/".toList

def base64Char (n : Nat) : Char := base64Chars.getD n 'A'

/-- Standard base64 over a byte list. -/
def base64EncodeBytes : List Nat → String
  | [] => ""
  | [a] =>
      String.mk [base64Char (a / 4), base64Char (a % 4 * 16)] ++ "=="
  | [a, b] =>
      String.mk [base64Char (a / 4), base64Char (a % 4 * 16 + b / 16),
        base64Char (b % 16 * 4)] ++ "="
  | a :: b :: c :: rest =>
      String.mk [base64Char (a / 4), base64Char (a % 4 * 16 + b / 16),
        base64Char (b % 16 * 4 + c / 64), base64Char (c % 64)] ++
        base64EncodeBytes rest

/-- `base64.encode` of `src/base64.js`: it delegates to the platform
(`btoa` in a browser, `Buffer.toString('base64')` on node); we model the
node path, base64 over the UTF-8 bytes of the string. -/
def base64encode (s : String) : String :=
  base64EncodeBytes (s.toUTF8.toList.map (fun b => b.toNat))

/-- What `execute(request)` does before (or instead of) calling `fetch`:
either the transport call is made, with the final URL and headers, or an
error is thrown first. -/
inductive ExecResult : Type where
  | fetchCalled (url : String) (headers : List (String × Json))
  | thrown (msg : String)
deriving Repr

/-- The pre-`fetch` part of `execute(request)`: the query list is always
appended to the URL after `?` or `&` (an empty array is truthy); if the
request's security list is non-empty, its first entry is looked up — by
its string coercion — in the `authentication` object (`in` on an absent
`authentication` is a TypeError), a missing entry throws
`credentials not provided`, the string `'basic'` sets the `Authorization`
header, and any other scheme value throws `not yet supported`; only then
is `fetch` reached. -/
def executePreFetch (auth : Option Authentication) (req : HttpRequest) : ExecResult :=
  let url :=
    if req.url.contains '?' then req.url ++ "&" ++ String.intercalate "&" req.query
    else req.url ++ "?" ++ String.intercalate "&" req.query
  match req.security with
  | [] => .fetchCalled url req.headers
  | sid :: _ =>
      let key := sid.jsToString
      match auth with
      | none => .thrown "TypeError: cannot use 'in' operator on undefined"
      | some a =>
          let hasKey :=
            (key = "basic" && a.basic.isSome) || (key = "apikey" && a.apikey.isSome)
          if !hasKey then
            .thrown ("security '" ++ key ++ "' credentials not provided")
          else
            match sid, a.basic with
            | .str "basic", some b =>
                .fetchCalled url
                  (setField req.headers "Authorization"
                    (.str ("Basic " ++
                      base64encode (b.user.jsToString ++ ":" ++ b.password.jsToString))))
            | _, _ =>
                .thrown ("security '" ++ key ++ "' not yet supported, contact makers")

/-- Whether `perform` reaches the transport call for a given build
outcome: `execute(httpRequest)` runs only after `buildRequest` returns
normally (a thrown build error propagates out of `perform`); and
`execute(null)` dereferences `request.method` before any fetch, so a
`null` build result also never reaches the transport. -/
def transportAttempted (auth : Option Authentication) : BuildResult → Bool
  | .ok req =>
      match executePreFetch auth req with
      | .fetchCalled _ _ => true
      | .thrown _ => false
  | .err _ => false
  | .nullRet => false

/-- The outcome of `normalizeResponse(operation, response,
requestedResponse)`: the returned `null` when the operation has no
response schema, a propagated scanner TypeError, or the result object. -/
inductive NormalizeResult : Type where
  | nullResult
  | thrown
  | ok (result : List (String × Json))
deriving Repr

/-- First index of an element in a list (`Array.prototype.indexOf`,
with `none` for `-1`). -/
def jsIndexOfAux : List String → String → Nat → Option Nat
  | [], _, _ => none
  | y :: rest, x, i => if y = x then some i else jsIndexOfAux rest x (i + 1)

def jsIndexOf (l : List String) (x : String) : Option Nat :=
  jsIndexOfAux l x 0

/-- `normalizeResponse` of the consumer: `null` when the operation has no
response schema; otherwise qualify each requested name as
`{profileId}#{name}`, run `mapResponse`, and for every mapped entry whose
profile id occurs among the qualified names, assign the entry's value to
the corresponding requested (unqualified) name. -/
def normalizeResponse (profileId : String) (responseSchema : Option SchemaNode)
    (response : Json) (requestedResponse : List String) : NormalizeResult :=
  match responseSchema with
  | none => .nullResult
  | some schema =>
      let qualifiedProperties := requestedResponse.map (fun e => profileId ++ "#" ++ e)
      match mapResponse schema response with
      | none => .thrown
      | some entries =>
          .ok (entries.foldl (fun result e =>
            match jsIndexOf qualifiedProperties e.profileId with
            | some i => setField result (requestedResponse.getD i "undefined") e.value
            | none => result) [])

/-! ## Concrete fixtures from the specification's example -/

/-- The schema of the spec's concrete example: an object whose `companies`
property is an array of objects whose `name` property carries
`x-profile: "P#op/Name"`. -/
def exampleSchema : SchemaNode :=
  .mk none (some "object")
    [("companies",
      .mk none (some "array") []
        (.single (.mk none (some "object")
          [("name", .mk (some "P#op/Name") none [] .undefined)] .undefined)))]
    .undefined

/-- The payload of the spec's concrete example:
`{companies:[{name:"A"},{name:"B"}]}`. -/
def examplePayload : Json :=
  .obj [("companies", .arr [.obj [("name", .str "A")], .obj [("name", .str "B")]])]

/-! ## C1 -/

/-- C1, counterexample: on the example schema, scan does not return the
entry with cursor `["companies", ""]` that the claim states — the
empty-string array sentinel has been replaced by the property key by the
time the annotated `name` node is reached. -/
theorem scan_example_not_claimed_cursor :
    traverseMapping exampleSchema [] ≠
      some [{ profileId := "P#op/Name", cursor := ["companies", ""] }] := by
  have h : traverseMapping exampleSchema [] =
      some [{ profileId := "P#op/Name", cursor := ["companies", "name"] }] := by
    simp [exampleSchema, traverseMapping, processObject, processArray, childCursor]
  rw [h]
  decide

/-- C1, amended: scan returns exactly one `MappingEntry`, with semanticId
`"P#op/Name"` and cursor `["companies", "name"]` (the sentinel replaced by
the property key), and extracting that cursor against the payload
`{companies:[{name:"A"},{name:"B"}]}` returns `["A", "B"]` in order. -/
theorem scan_extract_example :
    traverseMapping exampleSchema [] =
      some [{ profileId := "P#op/Name", cursor := ["companies", "name"] }] ∧
    extractValue examplePayload ["companies", "name"] =
      .arr [.str "A", .str "B"] := by
  constructor
  · simp [exampleSchema, traverseMapping, processObject, processArray, childCursor]
  · rw [extractValue_eq]
    rw [show lodashGet examplePayload (headKey ["companies", "name"]) =
      .arr [.obj [("name", .str "A")], .obj [("name", .str "B")]] from rfl]
    simp only [List.map, List.tail_cons]
    rw [extractValue_eq, extractValue_eq]
    rfl

/-! ## C2 -/

/-- C2: whenever the first cursor segment resolves in the payload to an
array of N elements, `extractValue` returns an array of exactly N
elements whose i-th element is the recursive extraction of the remaining
cursor segments against the i-th element (fan-out preserves element count
and order). -/
theorem extractValue_fanout (data : Json) (p : String) (cs : List String)
    (elems : List Json) (h : lodashGet data p = .arr elems) :
    extractValue data (p :: cs) = .arr (elems.map (fun e => extractValue e cs)) ∧
    (elems.map (fun e => extractValue e cs)).length = elems.length := by
  constructor
  · rw [extractValue_eq]
    simp only [headKey, List.tail_cons, h]
  · simp

/-- C2, witness at the spec's example payload. -/
theorem extractValue_fanout_witness :
    lodashGet examplePayload "companies" =
      .arr [.obj [("name", .str "A")], .obj [("name", .str "B")]] ∧
    (extractValue examplePayload ("companies" :: ["name"]) =
      .arr ([.obj [("name", .str "A")], .obj [("name", .str "B")]].map
        (fun e => extractValue e ["name"])) ∧
    ([Json.obj [("name", .str "A")], Json.obj [("name", .str "B")]].map
        (fun e => extractValue e ["name"])).length =
      [Json.obj [("name", .str "A")], Json.obj [("name", .str "B")]].length) :=
  ⟨rfl, extractValue_fanout examplePayload "companies" ["name"] _ rfl⟩

/-! ## C5 -/

/-- C5: the code at the claim's failing input. `extract(v, [])` does not
return `v` itself: `cursor[0]` is JavaScript `undefined`, `lodash.get`
coerces that path to the property key `"undefined"`, and the lookup on the
object `{name:"A"}` yields `undefined`. Consequently the recursive
fan-out of a one-segment cursor over an array produces `undefined` per
element instead of the elements themselves. -/
theorem extract_empty_cursor_not_identity :
    extractValue (Json.obj [("name", Json.str "A")]) [] = Json.undefined ∧
    extractValue (Json.obj [("name", Json.str "A")]) [] ≠
      Json.obj [("name", Json.str "A")] ∧
    extractValue (Json.obj [("companies", Json.arr [Json.obj [("name", Json.str "A")]])])
      ["companies"] = Json.arr [Json.undefined] := by
  refine ⟨?_, ?_, ?_⟩
  · rw [extractValue_eq]
    rw [show lodashGet (Json.obj [("name", Json.str "A")]) (headKey []) =
      Json.undefined from rfl]
  · rw [extractValue_eq]
    rw [show lodashGet (Json.obj [("name", Json.str "A")]) (headKey []) =
      Json.undefined from rfl]
    intro h
    exact nomatch h
  · rw [extractValue_eq]
    rw [show lodashGet (Json.obj [("companies", Json.arr [Json.obj [("name", Json.str "A")]])])
      (headKey ["companies"]) = .arr [Json.obj [("name", Json.str "A")]] from rfl]
    simp only [List.map, List.tail_cons]
    rw [extractValue_eq]
    rfl

/-! ## C7 -/

/-- C7, counterexample: with an absent response schema, `normalizeResponse`
returns JavaScript `null` — not a mapping containing no keys. -/
theorem normalize_no_schema_is_null_not_empty :
    normalizeResponse "P" none (Json.obj []) ["title"] = NormalizeResult.nullResult ∧
    normalizeResponse "P" none (Json.obj []) ["title"] ≠ NormalizeResult.ok [] := by
  constructor
  · rfl
  · intro h
    rw [show normalizeResponse "P" none (Json.obj []) ["title"] =
      NormalizeResult.nullResult from rfl] at h
    exact nomatch h

/-- C7, amended: for every concrete response, requested-name list and
profile id, `normalizeResponse` with an absent response schema returns
`null` (no error is raised — the traversal is never entered — but the
result is the null marker, not an empty mapping). -/
theorem normalize_no_schema_null (profileId : String) (response : Json)
    (requested : List String) :
    normalizeResponse profileId none response requested =
      NormalizeResult.nullResult := rfl

/-! ## C6 -/

/-- The per-property cursor of `processObject` is never empty: it always
ends in a pushed or substituted segment. -/
theorem childCursor_ne_nil (cursor : List String) (key : String) :
    childCursor cursor key ≠ [] := by
  unfold childCursor
  split <;> simp

mutual
/-- Entries emitted by `traverseMapping` from a non-empty cursor all carry
a non-empty cursor. -/
theorem traverseMapping_cursor_ne_nil :
    ∀ (node : SchemaNode) (cursor : List String), cursor ≠ [] →
      ∀ (es : List MappingEntry), traverseMapping node cursor = some es →
        ∀ e ∈ es, e.cursor ≠ []
  | .mk xp ty props items, cursor, hc, es, h => by
      simp only [traverseMapping] at h
      rcases hsub : (if ty = some "object" then processObject props cursor
          else if ty = some "array" then processArray items cursor
          else some []) with _ | r
      · rw [hsub] at h
        exact absurd h (by simp)
      · rw [hsub] at h
        simp only [Option.some.injEq] at h
        subst h
        intro e he
        rcases List.mem_append.mp he with hown | hr
        · rcases xp with _ | pid
          · simp at hown
          · simp at hown
            rw [hown]
            exact hc
        · by_cases h1 : ty = some "object"
          · rw [if_pos h1] at hsub
            exact processObject_cursor_ne_nil props cursor r hsub e hr
          · rw [if_neg h1] at hsub
            by_cases h2 : ty = some "array"
            · rw [if_pos h2] at hsub
              exact processArray_cursor_ne_nil items cursor r hsub e hr
            · rw [if_neg h2] at hsub
              simp only [Option.some.injEq] at hsub
              subst hsub
              exact absurd hr (by simp)

/-- Entries emitted by `processObject` all carry a non-empty cursor
(each child is traversed with a `childCursor`, which is never empty). -/
theorem processObject_cursor_ne_nil :
    ∀ (props : List (String × SchemaNode)) (cursor : List String)
      (es : List MappingEntry), processObject props cursor = some es →
        ∀ e ∈ es, e.cursor ≠ []
  | [], _, es, h => by
      simp only [processObject, Option.some.injEq] at h
      subst h
      intro e he
      exact absurd he (by simp)
  | (key, child) :: rest, cursor, es, h => by
      simp only [processObject] at h
      rcases hr : traverseMapping child (childCursor cursor key) with _ | r
      · rw [hr] at h
        exact absurd h (by simp)
      · rw [hr] at h
        rcases hrs : processObject rest cursor with _ | rs
        · rw [hrs] at h
          exact absurd h (by simp)
        · rw [hrs] at h
          simp only [Option.some.injEq] at h
          subst h
          intro e he
          rcases List.mem_append.mp he with h1 | h2
          · exact traverseMapping_cursor_ne_nil child (childCursor cursor key)
              (childCursor_ne_nil cursor key) r hr e h1
          · exact processObject_cursor_ne_nil rest cursor rs hrs e h2

/-- Entries emitted by `processArray` all carry a non-empty cursor (the
single item schema is traversed with the sentinel pushed). -/
theorem processArray_cursor_ne_nil :
    ∀ (items : SchemaItems) (cursor : List String)
      (es : List MappingEntry), processArray items cursor = some es →
        ∀ e ∈ es, e.cursor ≠ []
  | .single s, cursor, es, h => by
      simp only [processArray] at h
      exact traverseMapping_cursor_ne_nil s (cursor ++ [""]) (by simp) es h
  | .tuple ss, _, es, h => by
      simp only [processArray, Option.some.injEq] at h
      subst h
      intro e he
      exact absurd he (by simp)
  | .undefined, _, es, h => by
      simp only [processArray] at h
      exact absurd h (by simp)
end

/-- C6, counterexample: a schema whose root node itself carries the
annotation makes scan emit an entry with the empty cursor. -/
theorem scan_root_annotated_empty_cursor :
    traverseMapping (SchemaNode.mk (some "P#op") none [] .undefined) [] =
      some [{ profileId := "P#op", cursor := [] }] ∧
    ({ profileId := "P#op", cursor := [] } : MappingEntry).cursor = [] := by
  constructor
  · simp [traverseMapping]
  · rfl

/-- C6, amended: every `MappingEntry` emitted by scan has a non-empty
cursor unless it is the entry for the root node's own annotation — an
empty-cursor entry can only be the root's `x-profile`. -/
theorem scan_entry_cursor_empty_only_root :
    ∀ (node : SchemaNode) (es : List MappingEntry),
      traverseMapping node [] = some es →
      ∀ (e : MappingEntry), e ∈ es → e.cursor = [] →
        node.xprofile = some e.profileId
  | .mk xp ty props items, es, h, e, he, hcur => by
      simp only [traverseMapping] at h
      rcases hsub : (if ty = some "object" then processObject props []
          else if ty = some "array" then processArray items []
          else some []) with _ | r
      · rw [hsub] at h
        exact absurd h (by simp)
      · rw [hsub] at h
        simp only [Option.some.injEq] at h
        subst h
        rcases List.mem_append.mp he with hown | hr
        · rcases xp with _ | pid
          · simp at hown
          · simp at hown
            rw [hown]
            simp [SchemaNode.xprofile]
        · exfalso
          by_cases h1 : ty = some "object"
          · rw [if_pos h1] at hsub
            exact processObject_cursor_ne_nil props [] r hsub e hr hcur
          · rw [if_neg h1] at hsub
            by_cases h2 : ty = some "array"
            · rw [if_pos h2] at hsub
              exact processArray_cursor_ne_nil items [] r hsub e hr hcur
            · rw [if_neg h2] at hsub
              simp only [Option.some.injEq] at hsub
              subst hsub
              exact absurd hr (by simp)

/-- C6, witness for the amended statement: the root-annotated scalar
schema. -/
theorem scan_entry_cursor_empty_only_root_witness :
    traverseMapping (SchemaNode.mk (some "P#x") none [] .undefined) [] =
      some [{ profileId := "P#x", cursor := [] }] ∧
    ({ profileId := "P#x", cursor := [] } : MappingEntry) ∈
      [({ profileId := "P#x", cursor := [] } : MappingEntry)] ∧
    (SchemaNode.mk (some "P#x") none [] .undefined).xprofile = some "P#x" :=
  ⟨by simp [traverseMapping], by simp,
    scan_entry_cursor_empty_only_root (.mk (some "P#x") none [] .undefined)
      [{ profileId := "P#x", cursor := [] }] (by simp [traverseMapping])
      { profileId := "P#x", cursor := [] } (by simp) rfl⟩

/-! ## C4 -/

/-- C4: a parameter whose (truthy) `x-profile` id is present in the
qualified input map resolves to the caller's explicit input value —
whatever `x-super` source hint (credential-derived or literal) the
declaration also carries, since `p` and `auth` are arbitrary here, the
hint is never consulted. -/
theorem resolve_explicit_input_wins (auth : Option Authentication)
    (inputs : List (String × Json)) (p : ParamDecl) (pid : String) (v : Json)
    (h1 : p.xprofile = some pid) (h2 : pid ≠ "")
    (h3 : inputs.lookup pid = some v) :
    resolveParamValue auth inputs p = (true, v) := by
  simp [resolveParamValue, h1, h2, h3]

/-- C4, witness: the declaration carries a `security-basic-user` hint and
the credential store holds a different value, yet the explicit input
wins. -/
theorem resolve_explicit_input_wins_witness :
    ({ name := "user", paramIn := some "query", required := some true,
       xprofile := some "P#op/user",
       xsuper := some { source := some "security-basic-user", value := none } } :
        ParamDecl).xprofile = some "P#op/user" ∧
    "P#op/user" ≠ "" ∧
    List.lookup "P#op/user" [("P#op/user", Json.str "explicit")] =
      some (Json.str "explicit") ∧
    resolveParamValue
      (some { basic := some { user := Json.str "credential", password := Json.str "pw" },
              apikey := none })
      [("P#op/user", Json.str "explicit")]
      { name := "user", paramIn := some "query", required := some true,
        xprofile := some "P#op/user",
        xsuper := some { source := some "security-basic-user", value := none } } =
      (true, Json.str "explicit") :=
  ⟨rfl, by decide, rfl,
    resolve_explicit_input_wins _ _ _ _ _ rfl (by decide) rfl⟩

/-! ## C10 -/

/-- C10: a parameter that is not explicitly provided and whose source hint
resolves to a falsy value (`false`, `0`, `""`, `null`) is treated as
unresolved by the placement test `isProvided || parameterValue`: skipped
when optional, and the missing-required error is thrown when required —
even though a source supplied a value. -/
theorem falsy_hint_unresolved (auth : Option Authentication)
    (inputs : List (String × Json)) (st : ParamState) (p : ParamDecl) (v : Json)
    (hsup : p.xsuper.isSome = true)
    (hres : resolveParamValue auth inputs p = (false, v))
    (hfalsy : v.truthy = false) :
    (p.required.getD false = false → paramStep auth inputs st p = .ok st) ∧
    (p.required.getD false = true →
      paramStep auth inputs st p = .error (missingRequiredMsg p)) := by
  constructor <;> intro hreq <;> simp [paramStep, hres, hfalsy, hreq]

/-- C10, witness: a literal hint `value: false` on an optional parameter —
the parameter is skipped. -/
theorem falsy_hint_unresolved_witness :
    (({ name := "flag", paramIn := some "query", required := none,
        xprofile := none,
        xsuper := some { source := none, value := some (Json.bool false) } } :
         ParamDecl).xsuper).isSome = true ∧
    resolveParamValue none []
      { name := "flag", paramIn := some "query", required := none,
        xprofile := none,
        xsuper := some { source := none, value := some (Json.bool false) } } =
      (false, Json.bool false) ∧
    (Json.bool false).truthy = false ∧
    ((({ name := "flag", paramIn := some "query", required := none,
         xprofile := none,
         xsuper := some { source := none, value := some (Json.bool false) } } :
          ParamDecl).required).getD false = false →
      paramStep none [] { url := "u", query := [], headers := [] }
        { name := "flag", paramIn := some "query", required := none,
          xprofile := none,
          xsuper := some { source := none, value := some (Json.bool false) } } =
        .ok { url := "u", query := [], headers := [] }) :=
  ⟨rfl, rfl, rfl,
    (falsy_hint_unresolved none [] { url := "u", query := [], headers := [] }
      { name := "flag", paramIn := some "query", required := none,
        xprofile := none,
        xsuper := some { source := none, value := some (Json.bool false) } }
      (Json.bool false) rfl rfl rfl).1⟩

/-! ## C3 -/

/-- Splitting the parameter loop at an append. -/
theorem processParams_append (auth : Option Authentication)
    (inputs : List (String × Json)) (xs ys : List ParamDecl) (st : ParamState) :
    processParams auth inputs (xs ++ ys) st =
      match processParams auth inputs xs st with
      | .ok st' => processParams auth inputs ys st'
      | .error e => .error e := by
  induction xs generalizing st with
  | nil => simp [processParams]
  | cons p rest ih =>
      simp only [List.cons_append, processParams]
      cases hps : paramStep auth inputs st p with
      | ok st' => simp [hps, ih]
      | error e => simp [hps]

/-- An unresolved (not provided, falsy value) non-required parameter
leaves the parameter-loop state untouched. -/
theorem paramStep_unresolved_skip (auth : Option Authentication)
    (inputs : List (String × Json)) (st : ParamState) (p : ParamDecl)
    (h1 : (resolveParamValue auth inputs p).1 = false)
    (h2 : ((resolveParamValue auth inputs p).2).truthy = false)
    (hreq : p.required.getD false = false) :
    paramStep auth inputs st p = .ok st := by
  simp [paramStep, h1, h2, hreq]

/-- An unresolved required parameter throws the missing-required error. -/
theorem paramStep_unresolved_throw (auth : Option Authentication)
    (inputs : List (String × Json)) (st : ParamState) (p : ParamDecl)
    (h1 : (resolveParamValue auth inputs p).1 = false)
    (h2 : ((resolveParamValue auth inputs p).2).truthy = false)
    (hreq : p.required.getD false = true) :
    paramStep auth inputs st p = .error (missingRequiredMsg p) := by
  simp [paramStep, h1, h2, hreq]

/-- C3: for a declared parameter that resolves to no value (not provided,
falsy resolved value): when it is not required, the built request equals
the one built for the same operation without that declaration — the
parameter appears nowhere (query, headers, URL substitution, body); when
it is required (and the declarations before it processed normally), the
build throws the missing-required-parameter error naming the parameter
and its profile id, and the transport call is never attempted. -/
theorem build_unresolved_param (profileId providerUrl : String)
    (auth : Option Authentication) (components : Option ApiComponents)
    (affordanceId : String) (op : OasOperation)
    (parameters : List (String × Json)) (p : ParamDecl)
    (l1 l2 : List ParamDecl) (st : ParamState)
    (h1 : (resolveParamValue auth
      (qualifyInputs profileId affordanceId parameters) p).1 = false)
    (h2 : ((resolveParamValue auth
      (qualifyInputs profileId affordanceId parameters) p).2).truthy = false) :
    (p.required.getD false = false →
      buildRequest profileId providerUrl auth components affordanceId
          { op with parameters := some (l1 ++ p :: l2) } parameters =
        buildRequest profileId providerUrl auth components affordanceId
          { op with parameters := some (l1 ++ l2) } parameters) ∧
    (p.required.getD false = true →
      processParams auth (qualifyInputs profileId affordanceId parameters) l1
          { url := providerUrl ++ op.url, query := [], headers := [] } = .ok st →
      buildRequest profileId providerUrl auth components affordanceId
          { op with parameters := some (l1 ++ p :: l2) } parameters =
        .err (missingRequiredMsg p) ∧
      transportAttempted auth
        (buildRequest profileId providerUrl auth components affordanceId
          { op with parameters := some (l1 ++ p :: l2) } parameters) = false) := by
  obtain ⟨ourl, om, ops, orb, osec⟩ := op
  constructor
  · intro hreq
    have hE : processParams auth (qualifyInputs profileId affordanceId parameters)
        (l1 ++ p :: l2) { url := providerUrl ++ ourl, query := [], headers := [] } =
      processParams auth (qualifyInputs profileId affordanceId parameters)
        (l1 ++ l2) { url := providerUrl ++ ourl, query := [], headers := [] } := by
      rw [processParams_append, processParams_append]
      cases hl1 : processParams auth (qualifyInputs profileId affordanceId parameters)
          l1 { url := providerUrl ++ ourl, query := [], headers := [] } with
      | error e => rfl
      | ok st' =>
          simp only [processParams]
          rw [paramStep_unresolved_skip auth _ st' p h1 h2 hreq]
    simp only [buildRequest]
    rw [hE]
  · intro hreq hpre
    have hE : processParams auth (qualifyInputs profileId affordanceId parameters)
        (l1 ++ p :: l2) { url := providerUrl ++ ourl, query := [], headers := [] } =
      .error (missingRequiredMsg p) := by
      rw [processParams_append, hpre]
      simp only [processParams]
      rw [paramStep_unresolved_throw auth _ st p h1 h2 hreq]
    have hB : buildRequest profileId providerUrl auth components affordanceId
        { url := ourl, method := om, parameters := some (l1 ++ p :: l2),
          requestBody := orb, security := osec } parameters =
        .err (missingRequiredMsg p) := by
      simp only [buildRequest]
      rw [hE]
    exact ⟨hB, by rw [hB]; rfl⟩

/-- C3, witness: a required query parameter with no input, no hint. -/
theorem build_unresolved_param_witness :
    (resolveParamValue none (qualifyInputs "P" "op" [])
      { name := "q", paramIn := some "query", required := some true,
        xprofile := none, xsuper := none }).1 = false ∧
    ((resolveParamValue none (qualifyInputs "P" "op" [])
      { name := "q", paramIn := some "query", required := some true,
        xprofile := none, xsuper := none }).2).truthy = false ∧
    ((({ name := "q", paramIn := some "query", required := some true,
         xprofile := none, xsuper := none } : ParamDecl).required).getD false = true →
      processParams none (qualifyInputs "P" "op" []) []
          { url := "http://s" ++ "/a", query := [], headers := [] } =
        .ok { url := "http://s" ++ "/a", query := [], headers := [] } →
      buildRequest "P" "http://s" none none "op"
          { url := "/a", method := "get",
            parameters := some ([] ++
              ({ name := "q", paramIn := some "query", required := some true,
                 xprofile := none, xsuper := none } : ParamDecl) :: []),
            requestBody := none, security := none } [] =
        .err (missingRequiredMsg
          { name := "q", paramIn := some "query", required := some true,
            xprofile := none, xsuper := none }) ∧
      transportAttempted none
        (buildRequest "P" "http://s" none none "op"
          { url := "/a", method := "get",
            parameters := some ([] ++
              ({ name := "q", paramIn := some "query", required := some true,
                 xprofile := none, xsuper := none } : ParamDecl) :: []),
            requestBody := none, security := none } []) = false) :=
  ⟨rfl, rfl,
    (build_unresolved_param "P" "http://s" none none "op"
      { url := "/a", method := "get", parameters := none,
        requestBody := none, security := none } []
      { name := "q", paramIn := some "query", required := some true,
        xprofile := none, xsuper := none } [] []
      { url := "http://s" ++ "/a", query := [], headers := [] } rfl rfl).2⟩

/-! ## C8 -/

/-- The two request media types the builder supports. -/
def supportedMedia (mt : String) : Prop :=
  mt = "application/json" ∨ mt = "application/x-www-form-urlencoded"

instance (mt : String) : Decidable (supportedMedia mt) := by
  unfold supportedMedia
  infer_instance

/-- If any declared media type is unsupported, the content iteration
returns `null`. -/
theorem buildContentTypes_unsupported (auth : Option Authentication)
    (inputs : List (String × Json)) :
    ∀ (content : List (String × MediaObj)),
      (∃ mt ∈ content.map Prod.fst, ¬ supportedMedia mt) →
      buildContentTypes auth inputs content = none := by
  intro content
  induction content with
  | nil =>
      rintro ⟨mt, hmem, _⟩
      simp at hmem
  | cons hd rest ih =>
      rintro ⟨mt, hmem, hn⟩
      rcases hd with ⟨mt0, m0⟩
      simp only [List.map_cons, List.mem_cons] at hmem
      simp only [buildContentTypes]
      rcases hmem with heq | hmem
      · subst heq
        rw [if_pos]
        simp only [supportedMedia, not_or] at hn
        simp [hn.1, hn.2]
      · split
        · rfl
        · rw [ih ⟨mt, hmem, hn⟩]
  
/-- If every declared media type is supported, the content iteration
builds one `(mediaType, body)` per entry, in declaration order. -/
theorem buildContentTypes_supported (auth : Option Authentication)
    (inputs : List (String × Json)) :
    ∀ (content : List (String × MediaObj)),
      (∀ mt ∈ content.map Prod.fst, supportedMedia mt) →
      buildContentTypes auth inputs content =
        some (content.map (fun kv => (kv.1, buildBody auth inputs kv.2.properties))) := by
  intro content
  induction content with
  | nil => intro _; simp [buildContentTypes]
  | cons hd rest ih =>
      intro hall
      rcases hd with ⟨mt0, m0⟩
      have h0 : supportedMedia mt0 := hall mt0 (by simp)
      simp only [buildContentTypes]
      rw [if_neg]
      · rw [ih (fun mt hm => hall mt (by simp [hm]))]
        rfl
      · rcases h0 with h | h <;> simp [h]

/-- C8: if the declared request body content includes any media type other
than `application/json` or `application/x-www-form-urlencoded`, the build
returns `null` at once; otherwise the body is the single-level walk
(`buildBody`) of the first declared media type's direct schema properties,
and that first media type becomes the `content-type` header. -/
theorem build_request_body (profileId providerUrl : String)
    (auth : Option Authentication) (components : Option ApiComponents)
    (affordanceId : String) (op : OasOperation)
    (parameters : List (String × Json)) (rb : RequestBody)
    (hp : op.parameters = none) (hs : op.security = none)
    (hrb : op.requestBody = some rb) :
    ((∃ mt ∈ rb.content.map Prod.fst, ¬ supportedMedia mt) →
      buildRequest profileId providerUrl auth components affordanceId op parameters =
        .nullRet) ∧
    (∀ (mt0 : String) (m0 : MediaObj) (rest : List (String × MediaObj)),
      rb.content = (mt0, m0) :: rest →
      (∀ mt ∈ rb.content.map Prod.fst, supportedMedia mt) →
      buildRequest profileId providerUrl auth components affordanceId op parameters =
        .ok { url := providerUrl ++ op.url, method := op.method, query := []
              headers := setField (setField [] "content-type" (.str mt0))
                "accept" (.str "application/json")
              body := some (buildBody auth
                (qualifyInputs profileId affordanceId parameters) m0.properties)
              security := [] }) := by
  obtain ⟨ourl, om, ops, orb, osec⟩ := op
  simp only [OasOperation.parameters] at hp
  simp only [OasOperation.security] at hs
  simp only [OasOperation.requestBody] at hrb
  subst hp
  subst hs
  subst hrb
  constructor
  · intro hex
    simp only [buildRequest]
    rw [buildContentTypes_unsupported auth _ rb.content hex]
  · intro mt0 m0 rest hcontent hall
    simp only [buildRequest]
    rw [buildContentTypes_supported auth _ rb.content hall, hcontent]
    rfl

/-- C8, witness: a two-media-type body, `application/json` first. -/
theorem build_request_body_witness :
    ({ url := "/a", method := "post", parameters := none,
       requestBody := some { content :=
         [("application/json", { properties := [] }),
          ("application/x-www-form-urlencoded", { properties := [] })] },
       security := none } : OasOperation).parameters = none ∧
    ({ content :=
        [("application/json", ({ properties := [] } : MediaObj)),
         ("application/x-www-form-urlencoded", { properties := [] })] } :
       RequestBody).content =
      ("application/json", ({ properties := [] } : MediaObj)) ::
        [("application/x-www-form-urlencoded", { properties := [] })] ∧
    buildRequest "P" "http://s" none none "op"
      { url := "/a", method := "post", parameters := none,
        requestBody := some { content :=
          [("application/json", { properties := [] }),
           ("application/x-www-form-urlencoded", { properties := [] })] },
        security := none } [] =
      .ok { url := "http://s" ++ "/a", method := "post", query := []
            headers := setField (setField [] "content-type" (.str "application/json"))
              "accept" (.str "application/json")
            body := some (buildBody none (qualifyInputs "P" "op" []) [])
            security := [] } :=
  ⟨rfl, rfl,
    (build_request_body "P" "http://s" none none "op"
      { url := "/a", method := "post", parameters := none,
        requestBody := some { content :=
          [("application/json", { properties := [] }),
           ("application/x-www-form-urlencoded", { properties := [] })] },
        security := none } []
      { content :=
          [("application/json", { properties := [] }),
           ("application/x-www-form-urlencoded", { properties := [] })] }
      rfl rfl rfl).2
      "application/json" { properties := [] }
      [("application/x-www-form-urlencoded", { properties := [] })] rfl
      (by intro mt hm; simp at hm; rcases hm with h | h <;> simp [supportedMedia, h])⟩

/-! ## C9 -/

/-- A key that is not among an association list's keys looks up to
nothing. -/
theorem lookup_none_of_not_mem_keys (schemes : List (String × Json)) (k : String)
    (h : k ∉ schemes.map Prod.fst) : schemes.lookup k = none := by
  induction schemes with
  | nil => rfl
  | cons kv rest ih =>
      simp only [List.map_cons, List.mem_cons, not_or] at h
      rw [List.lookup]
      have hne : (k == kv.1) = false := by
        simpa [beq_eq_false_iff_ne] using h.1
      rw [hne]
      exact ih h.2

/-- The security components of the C9 scenario: only `basic` declared. -/
def c9schemes : List (String × Json) :=
  [("basic", Json.obj [("scheme", Json.str "basic")])]

def c9comps : ApiComponents :=
  { securitySchemes := some c9schemes }

/-- An operation declaring one security requirement, `{missing: []}`,
whose scheme id is absent from the components. -/
def c9op : OasOperation :=
  { url := "/a", method := "get", parameters := none, requestBody := none,
    security := some [["missing"]] }

/-- C9, counterexample: with the scheme id `missing` absent from the
declared security components, the build succeeds (the requirement is
silently skipped, `security` ends up empty) and the transport call is
attempted; no error is raised at build time. -/
theorem build_missing_scheme_not_failing :
    buildRequest "P" "http://s" none (some c9comps) "op" c9op [] =
      .ok { url := "http://s" ++ "/a", method := "get", query := []
            headers := [("accept", Json.str "application/json")]
            body := none, security := [] } ∧
    transportAttempted none
      (buildRequest "P" "http://s" none (some c9comps) "op" c9op []) = true := by
  constructor
  · rfl
  · rfl

/-- C9, amended: a declared security requirement whose scheme id is absent
from the declared `securitySchemes` is silently skipped (its `forEach`
iteration just returns), so the request is built without it; when the
operation declares security but the spec has no `components` or no
`securitySchemes` at all, the build fails with the thrown TypeError of the
`debug.error` call in the sanity check (never reaching that branch's
`return null`), before any transport call. -/
theorem build_security_resolution (profileId providerUrl : String)
    (auth : Option Authentication) (components : Option ApiComponents)
    (affordanceId : String) (op : OasOperation)
    (parameters : List (String × Json)) (items : List (List String))
    (hp : op.parameters = none) (hrb : op.requestBody = none)
    (hs : op.security = some items) :
    (components = none →
      buildRequest profileId providerUrl auth components affordanceId op parameters =
        .err securityComponentsTypeError ∧
      transportAttempted auth
        (buildRequest profileId providerUrl auth components affordanceId op
          parameters) = false) ∧
    (∀ comps : ApiComponents, components = some comps →
      comps.securitySchemes = none →
      buildRequest profileId providerUrl auth components affordanceId op parameters =
        .err securityComponentsTypeError ∧
      transportAttempted auth
        (buildRequest profileId providerUrl auth components affordanceId op
          parameters) = false) ∧
    (∀ (comps : ApiComponents) (schemes : List (String × Json)),
      components = some comps → comps.securitySchemes = some schemes →
      buildRequest profileId providerUrl auth components affordanceId op parameters =
        .ok { url := providerUrl ++ op.url, method := op.method, query := []
              headers := setField [] "accept" (.str "application/json")
              body := none, security := buildSecurity schemes items } ∧
      (∀ (item : List String) (rest : List (List String)),
        items = item :: rest →
        item.headD "undefined" ∉ schemes.map Prod.fst →
        buildSecurity schemes items = buildSecurity schemes rest)) := by
  obtain ⟨ourl, om, ops, orb, osec⟩ := op
  simp only [OasOperation.parameters] at hp
  simp only [OasOperation.requestBody] at hrb
  simp only [OasOperation.security] at hs
  subst hp
  subst hrb
  subst hs
  refine ⟨?_, ?_, ?_⟩
  · intro hc
    subst hc
    exact ⟨rfl, rfl⟩
  · intro comps hc hss
    subst hc
    obtain ⟨ss⟩ := comps
    simp only [ApiComponents.securitySchemes] at hss
    subst hss
    exact ⟨rfl, rfl⟩
  · intro comps schemes hc hss
    subst hc
    obtain ⟨ss⟩ := comps
    simp only [ApiComponents.securitySchemes] at hss
    subst hss
    constructor
    · rfl
    · intro item rest hitems hnot
      subst hitems
      simp only [buildSecurity]
      rw [lookup_none_of_not_mem_keys schemes _ hnot]

/-- C9, witness for the amended statement, at the C9 scenario. -/
theorem build_security_resolution_witness :
    c9op.security = some [["missing"]] ∧
    c9comps.securitySchemes = some c9schemes ∧
    buildRequest "P" "http://s" none (some c9comps) "op" c9op [] =
      .ok { url := "http://s" ++ "/a", method := "get", query := []
            headers := setField [] "accept" (.str "application/json")
            body := none, security := buildSecurity c9schemes [["missing"]] } ∧
    buildSecurity c9schemes [["missing"]] = buildSecurity c9schemes [] :=
  ⟨rfl, rfl,
    ((build_security_resolution "P" "http://s" none (some c9comps) "op" c9op []
      [["missing"]] rfl rfl rfl).2.2 c9comps c9schemes rfl rfl).1,
    ((build_security_resolution "P" "http://s" none (some c9comps) "op" c9op []
      [["missing"]] rfl rfl rfl).2.2 c9comps c9schemes rfl rfl).2
      ["missing"] [] rfl (by decide)⟩
